import Mathlib

/-!
Verification development for the sales-analytics system
(`src/Utils/data_processor.py`), a shallow embedding of the
`DataProcessor` static methods: field normalization
(`clean_product_name`, `clean_numeric_value`), record validation
(`validate_record`), the cleaning pipeline
(`clean_and_validate_records`), the aggregation engine
(`analyze_sales`) and the report formatter (`generate_sales_report`).

Python machine floats are embedded as exact rationals (`ℚ`); the inputs
exercised by the development are small decimal literals on which float
arithmetic is exact or whose claims do not depend on binary rounding.
Python `str` values are embedded as `String`, with the handful of string
methods the source uses re-implemented over `List Char` so that every
definition reduces in the kernel.  Known, deliberately out-of-scope
divergences from CPython are noted at each definition; none of them is
reachable from the inputs any theorem below depends on.
-/

/-! ## Python string primitives (over `List Char`) -/

/-- `s.replace(c, '')` for a one-character pattern: drop every occurrence
of the character (the source only ever replaces the one-character pattern
`","`). -/
def pyDropChar (c : Char) (s : String) : String :=
  String.mk (s.toList.filter (fun x => x ≠ c))

/-- `s.replace(c, d)` for one-character pattern and replacement. -/
def pyReplaceChar (c d : Char) (s : String) : String :=
  String.mk (s.toList.map (fun x => if x = c then d else x))

/-- Python `str.strip()`: remove leading and trailing whitespace.
(CPython also strips `\f`, `\v` and Unicode spaces; nothing below feeds
those in.) -/
def pyStrip (s : String) : String :=
  String.mk (((s.toList.dropWhile Char.isWhitespace).reverse.dropWhile
    Char.isWhitespace).reverse)

/-- `s.startswith(c)` for a one-character argument (the source only tests
the one-character strings `'T'`, `'P'` and `'-'`). -/
def pyStartsWithChar (c : Char) (s : String) : Bool :=
  match s.toList with
  | [] => false
  | x :: _ => x = c

/-- Python `str.split()` with no argument: split on runs of whitespace,
discarding empty pieces. -/
def pySplitWsAux : List Char → List Char → List String
  | [], acc => if acc.isEmpty then [] else [String.mk acc.reverse]
  | c :: t, acc =>
    if c.isWhitespace then
      if acc.isEmpty then pySplitWsAux t []
      else String.mk acc.reverse :: pySplitWsAux t []
    else pySplitWsAux t (c :: acc)

def pySplitWs (s : String) : List String := pySplitWsAux s.toList []

/-- Python `sep.join(xs)`. -/
def pyJoin (sep : String) : List String → String
  | [] => ""
  | x :: t => t.foldl (fun acc y => acc ++ sep ++ y) x

/-- Python `s.split(sep)` for a one-character separator, keeping empty
pieces (`"".split('-') == ['']`). -/
def pySplitOnCharAux (sep : Char) : List Char → List Char → List String
  | [], acc => [String.mk acc.reverse]
  | c :: t, acc =>
    if c = sep then String.mk acc.reverse :: pySplitOnCharAux sep t []
    else pySplitOnCharAux sep t (c :: acc)

def pySplitOnChar (sep : Char) (s : String) : List String :=
  pySplitOnCharAux sep s.toList []

/-! ## Python `float(str)` (finite decimal grammar, embedded in `ℚ`) -/

def digitsVal (ds : List Char) : ℕ :=
  ds.foldl (fun n c => 10 * n + (c.toNat - '0'.toNat)) 0

/-- Mantissa of a float literal: `digits [. digits]` or `. digits`,
returning its value and the unconsumed rest.  Fails when no digit is
present on either side of the point. -/
def parseMantissa (cs : List Char) : Option (ℚ × List Char) :=
  let ip := cs.takeWhile Char.isDigit
  let rest := cs.dropWhile Char.isDigit
  match rest with
  | '.' :: rest2 =>
    let fp := rest2.takeWhile Char.isDigit
    let rest3 := rest2.dropWhile Char.isDigit
    if ip.isEmpty && fp.isEmpty then none
    else some ((digitsVal ip : ℚ) + (digitsVal fp : ℚ) / ((10 : ℚ) ^ fp.length), rest3)
  | _ =>
    if ip.isEmpty then none else some ((digitsVal ip : ℚ), rest)

def parseExponentPart : List Char → Option ℤ
  | [] => some 0
  | e :: rest =>
    if e = 'e' ∨ e = 'E' then
      let (sgn, ds) : ℤ × List Char :=
        match rest with
        | '+' :: t => (1, t)
        | '-' :: t => (-1, t)
        | t => (1, t)
      if ds.isEmpty ∨ ¬ (ds.all Char.isDigit) then none
      else some (sgn * (digitsVal ds : ℤ))
    else none

def applyExp (m : ℚ) (e : ℤ) : ℚ :=
  if 0 ≤ e then m * (10 : ℚ) ^ e.toNat else m / (10 : ℚ) ^ (-e).toNat

/-- Python `float(s)` on a finite-decimal literal: optional surrounding
whitespace, optional sign, decimal mantissa, optional exponent.  Returns
`none` where CPython raises `ValueError`.  Divergence (unreachable in
this development): CPython additionally accepts `inf`/`nan` forms,
underscore digit grouping and Unicode digits. -/
def pyFloatOfString (s : String) : Option ℚ :=
  let cs := (pyStrip s).toList
  let (sgn, cs) : ℚ × List Char :=
    match cs with
    | '+' :: t => (1, t)
    | '-' :: t => (-1, t)
    | t => (1, t)
  match parseMantissa cs with
  | none => none
  | some (m, rest) =>
    match parseExponentPart rest with
    | none => none
    | some e => some (sgn * applyExp m e)

/-! ## Python values and record dictionaries -/

/-- A Python value as it occurs in a sales-record dict: a string (raw
fields), a float (cleaned numeric fields) or `None` (an unparsable
cleaned numeric field). -/
inductive Value where
  | str (s : String)
  | num (q : ℚ)
  | pynone
deriving DecidableEq, Repr

/-- Python `repr`/`str` of a float, for the values this development
evaluates: integral floats print as `N.0`, finite decimals print
fixed-point with the minimal number of fractional digits.  (CPython's
shortest-roundtrip repr of a non-decimal binary float is not modelled;
no theorem below formats such a value.) -/
def pyFloatRepr (q : ℚ) : String :=
  let sign : String := if q < 0 then "-" else ""
  let a : ℚ := |q|
  if a.den = 1 then sign ++ toString a.num ++ ".0"
  else
    match (List.range 18).find? (fun k => (10 : ℕ) ^ k % a.den = 0) with
    | some k =>
      let scaled : ℤ := a.num * ((10 : ℤ) ^ k / (a.den : ℤ))
      let ip : ℤ := scaled / (10 : ℤ) ^ k
      let fp : ℤ := scaled % (10 : ℤ) ^ k
      let fpStr := toString fp
      let fpStr := String.mk (List.replicate (k - fpStr.length) '0') ++ fpStr
      sign ++ toString ip ++ "." ++ fpStr
    | none => sign ++ toString a.num ++ "/" ++ toString a.den

/-- Python `str()` of a dict value, as an f-string formats it. -/
def pyStrOfValue : Value → String
  | .str s => s
  | .num q => pyFloatRepr q
  | .pynone => "None"

/-- How an f-string renders `record.get(key)` (no default): a missing key
prints as `None`. -/
def fmtGot : Option Value → String
  | none => "None"
  | some v => pyStrOfValue v

/-- A sales-record dictionary.  The ten keys the source ever reads or
writes; `none` means the key is absent from the dict. -/
structure Record where
  TransactionID : Option Value := none
  Date : Option Value := none
  ProductID : Option Value := none
  ProductName : Option Value := none
  Quantity : Option Value := none
  UnitPrice : Option Value := none
  CustomerID : Option Value := none
  Region : Option Value := none
  TotalPrice : Option Value := none
  Error : Option Value := none
deriving DecidableEq, Repr

instance : Inhabited Record := ⟨{}⟩

/-- A raw record as produced by `FileHandler.parse_line`: the eight text
fields, each possibly absent. -/
structure RawRecord where
  TransactionID : Option String := none
  Date : Option String := none
  ProductID : Option String := none
  ProductName : Option String := none
  Quantity : Option String := none
  UnitPrice : Option String := none
  CustomerID : Option String := none
  Region : Option String := none
deriving DecidableEq, Repr

/-- The dict a raw record denotes (`record.copy()` of an all-string dict). -/
def RawRecord.toRecord (r : RawRecord) : Record :=
  { TransactionID := r.TransactionID.map .str
    Date := r.Date.map .str
    ProductID := r.ProductID.map .str
    ProductName := r.ProductName.map .str
    Quantity := r.Quantity.map .str
    UnitPrice := r.UnitPrice.map .str
    CustomerID := r.CustomerID.map .str
    Region := r.Region.map .str }

/-- `if not record:` — a dict is falsy iff it has no keys. -/
def RawRecord.isEmptyDict (r : RawRecord) : Bool :=
  r.TransactionID.isNone && r.Date.isNone && r.ProductID.isNone &&
  r.ProductName.isNone && r.Quantity.isNone && r.UnitPrice.isNone &&
  r.CustomerID.isNone && r.Region.isNone

/-! ## `DataProcessor.clean_product_name` and `clean_numeric_value` -/

/-- `clean_product_name`: replace commas by spaces, then collapse
whitespace runs (`' '.join(name.split())`). -/
def cleanProductName (productName : String) : String :=
  let cleaned := pyReplaceChar ',' ' ' productName
  pyJoin " " (pySplitWs cleaned)

/-- A string method called on a non-string raises (`AttributeError` /
`TypeError`); `asStr` is that check, used where the source calls a string
method outside any `try`. -/
def asStr : Value → Except String String
  | .str s => .ok s
  | .num _ => .error "TypeError: expected str"
  | .pynone => .error "TypeError: expected str"

/-- `clean_numeric_value(value)`.  The `try` block catches both the
`ValueError` of `float()` and the `AttributeError` of `.replace` on a
non-string (a float or `None`), returning `None` for each. -/
def cleanNumericValue : Value → Option ℚ
  | .str v =>
    let cleaned := pyStrip (pyDropChar ',' v)
    if pyStartsWithChar '-' cleaned then none
    else pyFloatOfString cleaned
  | .num _ => none
  | .pynone => none

/-- `quantity is None or quantity <= 0` (and the same test for
`unit_price`). -/
def noneOrNonpos : Option ℚ → Bool
  | none => true
  | some q => q ≤ 0

/-! ## `datetime.strptime(date_str, '%Y-%m-%d')`

CPython's `_strptime` compiles the format to the regex
`^\d\d\d\d-(1[0-2]|0[1-9]|[1-9])-(3[01]|[12]\d|0[1-9]|[1-9])$`
(month and day admit one- or two-digit forms) and then `datetime`
construction checks the calendar (`day out of range for month`,
`year >= MINYEAR = 1`).  Because year, month and day bodies are
digit-only, a string matches iff splitting on `'-'` yields exactly three
such pieces. -/

def isDigitStr (s : String) : Bool := !s.toList.isEmpty && s.toList.all Char.isDigit

def strVal (s : String) : ℕ := digitsVal s.toList

def isLeapYear (y : ℕ) : Bool := (y % 4 = 0 && y % 100 ≠ 0) || y % 400 = 0

def daysInMonth (y m : ℕ) : ℕ :=
  if m = 2 then (if isLeapYear y then 29 else 28)
  else if m = 4 ∨ m = 6 ∨ m = 9 ∨ m = 11 then 30
  else 31

/-- Success of `datetime.strptime(s, '%Y-%m-%d')`. -/
def pyStrptimeYmd (s : String) : Bool :=
  match pySplitOnChar '-' s with
  | [y, m, d] =>
    isDigitStr y && y.toList.length = 4 && 1 ≤ strVal y &&
    isDigitStr m && (m.toList.length = 1 || m.toList.length = 2) &&
      1 ≤ strVal m && strVal m ≤ 12 &&
    isDigitStr d && (d.toList.length = 1 || d.toList.length = 2) &&
      1 ≤ strVal d && strVal d ≤ daysInMonth (strVal y) (strVal m)
  | _ => false

/-- Modelled from the spec (§4.2 rule 6, for comparison with the code):
the date must be *exactly* a 4-digit year, 2-digit month and 2-digit day
joined by literal `-`, forming a valid calendar date. -/
def specExactYmd (s : String) : Bool :=
  match pySplitOnChar '-' s with
  | [y, m, d] =>
    isDigitStr y && y.toList.length = 4 && 1 ≤ strVal y &&
    isDigitStr m && m.toList.length = 2 && 1 ≤ strVal m && strVal m ≤ 12 &&
    isDigitStr d && d.toList.length = 2 &&
      1 ≤ strVal d && strVal d ≤ daysInMonth (strVal y) (strVal m)
  | _ => false

/-! ## `DataProcessor.validate_record` -/

/-- `validate_record(record)`: the seven business rules in source order,
returning at the first failure.  `Except.error` marks an exception
escaping the function (a string method or `strptime` applied to a
non-string field value — only `clean_numeric_value` runs inside a
`try`). -/
def validateRecord (record : Record) : Except String (Bool × String) :=
  match asStr (record.TransactionID.getD (.str "")) with
  | .error e => .error e
  | .ok tid =>
  if !pyStartsWithChar 'T' tid then .ok (false, "TransactionID must start with 'T'")
  else match asStr (record.CustomerID.getD (.str "")) with
  | .error e => .error e
  | .ok cust =>
  if pyStrip cust = "" then .ok (false, "Missing CustomerID")
  else match asStr (record.Region.getD (.str "")) with
  | .error e => .error e
  | .ok reg =>
  if pyStrip reg = "" then .ok (false, "Missing Region")
  else
  let quantity := cleanNumericValue (record.Quantity.getD (.str "0"))
  if noneOrNonpos quantity then
    .ok (false, "Invalid Quantity: " ++ fmtGot record.Quantity)
  else
  let unit_price := cleanNumericValue (record.UnitPrice.getD (.str "0"))
  if noneOrNonpos unit_price then
    .ok (false, "Invalid UnitPrice: " ++ fmtGot record.UnitPrice)
  else match asStr (record.Date.getD (.str "")) with
  | .error e => .error e
  | .ok dateStr =>
  if !pyStrptimeYmd dateStr then
    .ok (false, "Invalid Date format: " ++ dateStr)
  else match asStr (record.ProductID.getD (.str "")) with
  | .error e => .error e
  | .ok pid =>
  if !pyStartsWithChar 'P' pid then
    .ok (false, "Invalid ProductID: " ++ pid)
  else .ok (true, "Valid")

/-- Builder for a record whose five string-rule fields hold strings when
present (`Quantity`, `UnitPrice` and the unread fields are arbitrary
dict values). -/
def mkRecord (tid cust reg date pid : Option String)
    (pn qv uv tp er : Option Value) : Record :=
  { TransactionID := tid.map .str
    CustomerID := cust.map .str
    Region := reg.map .str
    Date := date.map .str
    ProductID := pid.map .str
    ProductName := pn
    Quantity := qv
    UnitPrice := uv
    TotalPrice := tp
    Error := er }

/-- The value `validate_record` computes on such a record: the source's
if-chain, first failing rule wins. -/
def chainResult (tid cust reg date pid : Option String)
    (qv uv : Option Value) : Bool × String :=
  if !pyStartsWithChar 'T' (tid.getD "") then
    (false, "TransactionID must start with 'T'")
  else if pyStrip (cust.getD "") = "" then (false, "Missing CustomerID")
  else if pyStrip (reg.getD "") = "" then (false, "Missing Region")
  else if noneOrNonpos (cleanNumericValue (qv.getD (.str "0"))) then
    (false, "Invalid Quantity: " ++ fmtGot qv)
  else if noneOrNonpos (cleanNumericValue (uv.getD (.str "0"))) then
    (false, "Invalid UnitPrice: " ++ fmtGot uv)
  else if !pyStrptimeYmd (date.getD "") then
    (false, "Invalid Date format: " ++ date.getD "")
  else if !pyStartsWithChar 'P' (pid.getD "") then
    (false, "Invalid ProductID: " ++ pid.getD "")
  else (true, "Valid")

theorem asStr_mapped (o : Option String) :
    asStr ((o.map .str).getD (.str "")) = .ok (o.getD "") := by
  cases o <;> rfl

set_option maxHeartbeats 1000000 in
theorem validateRecord_mk (tid cust reg date pid : Option String)
    (pn qv uv tp er : Option Value) :
    validateRecord (mkRecord tid cust reg date pid pn qv uv tp er)
      = .ok (chainResult tid cust reg date pid qv uv) := by
  simp only [validateRecord, mkRecord, asStr_mapped, chainResult]
  split_ifs <;> rfl

/-! ## `DataProcessor.clean_and_validate_records` -/

def valueOfParsed : Option ℚ → Value
  | some q => .num q
  | none => .pynone

/-- The body of the pipeline loop for one non-empty record: copy, clean
`ProductName`, overwrite `Quantity`/`UnitPrice` with their parses, then
re-validate the *cleaned* record, routing to valid (`.inl`, with
`TotalPrice`) or invalid (`.inr`, with `Error`).

`validate_record` cannot raise here (`validateRecord_cleansed_isOk`
below): the five string-rule fields of the cleaned record are strings or
absent.  The `.error` fallback is therefore unreachable. -/
def processRawRecord (record : RawRecord) : Record ⊕ Record :=
  let cleaned0 := record.toRecord
  let cleaned1 := { cleaned0 with
    ProductName := some (.str (cleanProductName (record.ProductName.getD ""))) }
  let quantity := cleanNumericValue (cleaned1.Quantity.getD (.str "0"))
  let unit_price := cleanNumericValue (cleaned1.UnitPrice.getD (.str "0"))
  let cleaned := { cleaned1 with
    Quantity := some (valueOfParsed quantity)
    UnitPrice := some (valueOfParsed unit_price) }
  let res := (validateRecord cleaned).toOption.getD (false, "unreachable")
  if res.1 && quantity.isSome && unit_price.isSome then
    .inl { cleaned with TotalPrice := some (.num (quantity.getD 0 * unit_price.getD 0)) }
  else
    .inr { cleaned with Error := some (.str res.2) }

/-- `clean_and_validate_records(records)`: skip falsy records, process
the rest in order, partitioning into `(valid_records, invalid_records)`. -/
def cleanAndValidateRecords : List RawRecord → List Record × List Record
  | [] => ([], [])
  | record :: rest =>
    if record.isEmptyDict then cleanAndValidateRecords rest
    else
      let res := cleanAndValidateRecords rest
      match processRawRecord record with
      | .inl v => (v :: res.1, res.2)
      | .inr i => (res.1, i :: res.2)

/-- The valid-side routing of one non-empty record, as a partial map. -/
def routeValid (r : RawRecord) : Option Record :=
  match processRawRecord r with
  | .inl v => some v
  | .inr _ => none

/-- The invalid-side routing of one non-empty record, as a partial map. -/
def routeInvalid (r : RawRecord) : Option Record :=
  match processRawRecord r with
  | .inl _ => none
  | .inr i => some i

/-! ## `DataProcessor.analyze_sales` -/

/-- A record of the kind `analyze_sales` is specified over: a valid
record, every field present with its settled type and `TotalPrice`
attached. -/
structure VRecord where
  TransactionID : String
  Date : String
  ProductID : String
  ProductName : String
  Quantity : ℚ
  UnitPrice : ℚ
  CustomerID : String
  Region : String
  TotalPrice : ℚ
deriving DecidableEq, Repr

structure RegionStats where
  total_sales : ℚ
  total_quantity : ℚ
  transactions : ℕ
deriving DecidableEq, Repr

structure ProductStats where
  product_name : String
  total_sales : ℚ
  total_quantity : ℚ
  transactions : ℕ
deriving DecidableEq, Repr

structure CustomerStats where
  total_spent : ℚ
  transactions : ℕ
deriving DecidableEq, Repr

structure Summary where
  total_records : ℕ
  total_sales : ℚ
  total_quantity : ℤ
  average_unit_price : ℚ
  unique_customers : ℕ
  unique_products : ℕ
deriving DecidableEq, Repr

/-- `analyze_sales`'s result dict.  Python dicts preserve insertion
order, so each rollup is an ordered association list. -/
structure Analysis where
  summary : Summary
  by_region : List (String × RegionStats)
  by_product : List (String × ProductStats)
  top_customers : List (String × CustomerStats)
  sales_trends : List (String × ℚ)
deriving DecidableEq, Repr

/-- Ordered-dict upsert: `if k not in d: d[k] = init` followed by an
in-place update of `d[k]` — first-encounter position is kept. -/
def upsert (k : String) (init : σ) (f : σ → σ) :
    List (String × σ) → List (String × σ)
  | [] => [(k, f init)]
  | (k', v) :: t =>
    if k' = k then (k', f v) :: t else (k', v) :: upsert k init f t

/-- One step of Python's stable descending sort: insert before the first
element whose key is not larger (so earlier-encountered elements win
ties). -/
def insertDesc (key : α → ℚ) (a : α) : List α → List α
  | [] => [a]
  | b :: bs => if key a < key b then b :: insertDesc key a bs else a :: b :: bs

/-- `sorted(xs, key=..., reverse=True)`: Python's sort is stable, and a
stable descending sort is (extensionally) insertion sort with
`insertDesc`. -/
def sortDesc (key : α → ℚ) : List α → List α
  | [] => []
  | a :: l => insertDesc key a (sortDesc key l)

/-- `sorted(date_sales.items())` on string-keyed pairs with distinct
keys: ascending lexicographic insertion sort on the key. -/
def insertAscKey (p : String × ℚ) : List (String × ℚ) → List (String × ℚ)
  | [] => [p]
  | q :: t => if q.1 < p.1 then q :: insertAscKey p t else p :: q :: t

def sortAscKey : List (String × ℚ) → List (String × ℚ)
  | [] => []
  | p :: l => insertAscKey p (sortAscKey l)

/-- Round half to even at `q * 100` — Python 3 `round(x, 2)` on our
exact-rational embedding of floats. -/
def pyRound2 (q : ℚ) : ℚ :=
  let n : ℤ := ⌊q * 100⌋
  let f : ℚ := q * 100 - n
  let r : ℤ :=
    if f < 1 / 2 then n
    else if 1 / 2 < f then n + 1
    else if n % 2 = 0 then n else n + 1
  (r : ℚ) / 100

/-- Python `int(float)`: truncation toward zero. -/
def intTrunc (q : ℚ) : ℤ := q.num / (q.den : ℤ)

def regionRollup (l : List VRecord) : List (String × RegionStats) :=
  l.foldl (fun acc r =>
    upsert r.Region ⟨0, 0, 0⟩
      (fun st => { st with
        total_sales := st.total_sales + r.TotalPrice
        total_quantity := st.total_quantity + r.Quantity
        transactions := st.transactions + 1 }) acc) []

def productRollup (l : List VRecord) : List (String × ProductStats) :=
  l.foldl (fun acc r =>
    upsert r.ProductID ⟨r.ProductName, 0, 0, 0⟩
      (fun st => { st with
        total_sales := st.total_sales + r.TotalPrice
        total_quantity := st.total_quantity + r.Quantity
        transactions := st.transactions + 1 }) acc) []

def customerRollup (l : List VRecord) : List (String × CustomerStats) :=
  l.foldl (fun acc r =>
    upsert r.CustomerID ⟨0, 0⟩
      (fun st => { st with
        total_spent := st.total_spent + r.TotalPrice
        transactions := st.transactions + 1 }) acc) []

def dateRollup (l : List VRecord) : List (String × ℚ) :=
  l.foldl (fun acc r =>
    upsert r.Date 0 (fun t => t + r.TotalPrice) acc) []

/-- The analysis built for a non-empty valid-record list (the body of
`analyze_sales` after the empty-input guard). -/
def analysisBody (l : List VRecord) : Analysis :=
  let total_sales := (l.map VRecord.TotalPrice).sum
  let total_quantity := (l.map VRecord.Quantity).sum
  let avg_price := if 0 < total_quantity then total_sales / total_quantity else 0
  { summary :=
    { total_records := l.length
      total_sales := pyRound2 total_sales
      total_quantity := intTrunc total_quantity
      average_unit_price := pyRound2 avg_price
      unique_customers := ((l.map VRecord.CustomerID).dedup).length
      unique_products := ((l.map VRecord.ProductID).dedup).length }
    by_region := regionRollup l
    by_product := (sortDesc (fun p => p.2.total_sales) (productRollup l)).take 10
    top_customers := (sortDesc (fun p => p.2.total_spent) (customerRollup l)).take 10
    sales_trends := sortAscKey (dateRollup l) }

/-- `analyze_sales(valid_records)`: the empty dict `{}` on empty input is
embedded as `none`. -/
def analyzeSales (l : List VRecord) : Option Analysis :=
  if l.isEmpty then none else some (analysisBody l)

/-! ## `DataProcessor.generate_sales_report` -/

/-- Digit grouping: split a least-significant-first digit list into
3-digit chunks. -/
def chunk3 : List Char → List (List Char)
  | [] => []
  | [a] => [[a]]
  | [a, b] => [[a, b]]
  | a :: b :: c :: t => [a, b, c] :: chunk3 t

/-- Thousands grouping of a digit string (most significant first). -/
def groupDigits (ds : List Char) : String :=
  pyJoin "," (((chunk3 ds.reverse).map (fun c => String.mk c.reverse)).reverse)

def pyGroupNat (n : ℕ) : String := groupDigits (toString n).toList

def pyGroupInt (n : ℤ) : String :=
  if n < 0 then "-" ++ pyGroupNat (-n).toNat else pyGroupNat n.toNat

/-- The integer `round(q * 100)` under round-half-to-even. -/
def roundCents (q : ℚ) : ℤ :=
  let n : ℤ := ⌊q * 100⌋
  let f : ℚ := q * 100 - n
  if f < 1 / 2 then n
  else if 1 / 2 < f then n + 1
  else if n % 2 = 0 then n else n + 1

/-- Python `f"{x:,.2f}"`: two fixed decimals, half-even, grouped integer
part. -/
def pyFmtMoney (q : ℚ) : String :=
  let r := roundCents q
  let sign : String := if r < 0 then "-" else ""
  let m : ℕ := r.natAbs
  let fp := m % 100
  sign ++ pyGroupNat (m / 100) ++ "." ++
    (if fp < 10 then "0" else "") ++ toString fp

/-- Python `f"{x:,}"` on a float: grouped integer part, fractional tail
as in `pyFloatRepr`. -/
def pyFmtFloatComma (q : ℚ) : String :=
  let sign : String := if q < 0 then "-" else ""
  let a : ℚ := |q|
  if a.den = 1 then sign ++ pyGroupNat a.num.toNat ++ ".0"
  else
    match (List.range 18).find? (fun k => (10 : ℕ) ^ k % a.den = 0) with
    | some k =>
      let scaled : ℤ := a.num * ((10 : ℤ) ^ k / (a.den : ℤ))
      let ip : ℤ := scaled / (10 : ℤ) ^ k
      let fp : ℤ := scaled % (10 : ℤ) ^ k
      let fpStr := toString fp
      let fpStr := String.mk (List.replicate (k - fpStr.length) '0') ++ fpStr
      sign ++ pyGroupNat ip.toNat ++ "." ++ fpStr
    | none => sign ++ toString a.num ++ "/" ++ toString a.den

/-- `generate_sales_report(analysis)`: the `"No data available for
analysis"` sentinel on a falsy (empty) analysis dict, otherwise the
fixed-section textual report joined with newlines. -/
def generateSalesReport : Option Analysis → String
  | none => "No data available for analysis"
  | some analysis =>
    let eq60 := String.mk (List.replicate 60 '=')
    let dash40 := String.mk (List.replicate 40 '-')
    let rlines : List String :=
      [eq60, "SALES ANALYSIS REPORT", eq60]
      ++ ["\nSUMMARY STATISTICS:", dash40,
          "Total Valid Records: " ++ toString analysis.summary.total_records,
          "Total Sales: $" ++ pyFmtMoney analysis.summary.total_sales,
          "Total Quantity Sold: " ++ pyGroupInt analysis.summary.total_quantity,
          "Average Unit Price: $" ++ pyFmtMoney analysis.summary.average_unit_price,
          "Unique Customers: " ++ toString analysis.summary.unique_customers,
          "Unique Products: " ++ toString analysis.summary.unique_products]
      ++ ["\nREGION-WISE ANALYSIS:", dash40]
      ++ (analysis.by_region.flatMap (fun p =>
          [p.1 ++ ":",
           "  Total Sales: $" ++ pyFmtMoney p.2.total_sales,
           "  Quantity Sold: " ++ pyFmtFloatComma p.2.total_quantity,
           "  Transactions: " ++ toString p.2.transactions]))
      ++ ["\nTOP SELLING PRODUCTS:", dash40]
      ++ (analysis.by_product.enum.flatMap (fun ip =>
          [toString (ip.1 + 1) ++ ". " ++ ip.2.1 ++ " - " ++ ip.2.2.product_name,
           "   Sales: $" ++ pyFmtMoney ip.2.2.total_sales,
           "   Quantity: " ++ pyFmtFloatComma ip.2.2.total_quantity]))
      ++ ["\nTOP CUSTOMERS:", dash40]
      ++ ((analysis.top_customers.take 5).enum.flatMap (fun ic =>
          [toString (ic.1 + 1) ++ ". Customer " ++ ic.2.1,
           "   Total Spent: $" ++ pyFmtMoney ic.2.2.total_spent,
           "   Transactions: " ++ toString ic.2.2.transactions]))
    pyJoin "\n" rlines

/-! ## A store-level model of the pipeline (for the frame property)

`clean_and_validate_records` works on heap-allocated dicts; to state that
it never mutates its input records we re-embed the loop over an explicit
store (`List Record`, addresses are indices).  `record.copy()` allocates
a fresh cell at the end of the store; each later `cleaned_record[k] = v`
is a write to that fresh address. -/

abbrev Store := List Record

/-- `if not record:` on a dict cell. -/
def recEmptyDict (r : Record) : Bool :=
  r.TransactionID.isNone && r.Date.isNone && r.ProductID.isNone &&
  r.ProductName.isNone && r.Quantity.isNone && r.UnitPrice.isNone &&
  r.CustomerID.isNone && r.Region.isNone && r.TotalPrice.isNone &&
  r.Error.isNone

/-- One loop iteration over the store: returns the new store and, unless
the record was skipped, the routing (`true` = valid) with the address of
the freshly allocated cleaned record.  `.error` = a Python exception
propagating out of the loop (string method on a non-string field). -/
def stepStore (s : Store) (a : ℕ) :
    Except String (Store × Option (Bool × ℕ)) :=
  let record := s.getD a default
  if recEmptyDict record then .ok (s, none)
  else
    let na := s.length
    let s1 : Store := s ++ [record]
    match asStr ((s1.getD na default).ProductName.getD (.str "")) with
    | .error e => .error e
    | .ok pn =>
      let s2 := s1.set na
        { s1.getD na default with ProductName := some (.str (cleanProductName pn)) }
      let quantity := cleanNumericValue ((s2.getD na default).Quantity.getD (.str "0"))
      let unit_price := cleanNumericValue ((s2.getD na default).UnitPrice.getD (.str "0"))
      let s3 := s2.set na
        { s2.getD na default with Quantity := some (valueOfParsed quantity) }
      let s4 := s3.set na
        { s3.getD na default with UnitPrice := some (valueOfParsed unit_price) }
      match validateRecord (s4.getD na default) with
      | .error e => .error e
      | .ok res =>
        if res.1 && quantity.isSome && unit_price.isSome then
          .ok (s4.set na
            { s4.getD na default with
              TotalPrice := some (.num (quantity.getD 0 * unit_price.getD 0)) },
            some (true, na))
        else
          .ok (s4.set na
            { s4.getD na default with Error := some (.str res.2) },
            some (false, na))

/-- The whole loop: process the records at the given addresses in order,
collecting the valid and invalid output addresses. -/
def processStore : List ℕ → Store → Except String (Store × List ℕ × List ℕ)
  | [], s => .ok (s, [], [])
  | a :: rest, s =>
    match stepStore s a with
    | .error e => .error e
    | .ok (s1, tag) =>
      match processStore rest s1 with
      | .error e => .error e
      | .ok (s2, vs, is) =>
        match tag with
        | none => .ok (s2, vs, is)
        | some (true, b) => .ok (s2, b :: vs, is)
        | some (false, b) => .ok (s2, vs, b :: is)

/-- A store cell holding a record whose string-rule fields (and
`ProductName`) are strings when present — every record parsed from the
input file is of this shape. -/
def StrOkCell (r : Record) : Prop :=
  (∀ v, r.TransactionID = some v → ∃ s, v = .str s) ∧
  (∀ v, r.CustomerID = some v → ∃ s, v = .str s) ∧
  (∀ v, r.Region = some v → ∃ s, v = .str s) ∧
  (∀ v, r.Date = some v → ∃ s, v = .str s) ∧
  (∀ v, r.ProductID = some v → ∃ s, v = .str s) ∧
  (∀ v, r.ProductName = some v → ∃ s, v = .str s)

/-! ## Lemmas: the stable descending sort -/

theorem length_insertDesc (key : α → ℚ) (a : α) (l : List α) :
    (insertDesc key a l).length = l.length + 1 := by
  induction l with
  | nil => rfl
  | cons b bs ih => by_cases h : key a < key b <;> simp [insertDesc, h, ih]

theorem length_sortDesc (key : α → ℚ) (l : List α) :
    (sortDesc key l).length = l.length := by
  induction l with
  | nil => rfl
  | cons a l ih => simp [sortDesc, length_insertDesc, ih]

theorem mem_insertDesc (key : α → ℚ) (a x : α) (l : List α) :
    x ∈ insertDesc key a l ↔ x = a ∨ x ∈ l := by
  induction l with
  | nil => simp [insertDesc]
  | cons b bs ih =>
    by_cases h : key a < key b <;> simp [insertDesc, h, ih] <;> tauto

theorem pairwise_insertDesc (key : α → ℚ) (a : α) {l : List α}
    (h : l.Pairwise (fun x y => key y ≤ key x)) :
    (insertDesc key a l).Pairwise (fun x y => key y ≤ key x) := by
  induction l with
  | nil => simp [insertDesc]
  | cons b bs ih =>
    rcases List.pairwise_cons.mp h with ⟨hb, hbs⟩
    by_cases hab : key a < key b
    · simp only [insertDesc, if_pos hab]
      refine List.pairwise_cons.mpr ⟨?_, ih hbs⟩
      intro x hx
      rcases (mem_insertDesc key a x bs).mp hx with rfl | hxbs
      · exact le_of_lt hab
      · exact hb x hxbs
    · simp only [insertDesc, if_neg hab]
      refine List.pairwise_cons.mpr ⟨?_, h⟩
      intro x hx
      rcases List.mem_cons.mp hx with rfl | hxbs
      · exact le_of_not_lt hab
      · exact le_trans (hb x hxbs) (le_of_not_lt hab)

theorem pairwise_sortDesc (key : α → ℚ) (l : List α) :
    (sortDesc key l).Pairwise (fun x y => key y ≤ key x) := by
  induction l with
  | nil => simp [sortDesc]
  | cons a l ih => exact pairwise_insertDesc key a ih

theorem filter_insertDesc (key : α → ℚ) (a : α) (l : List α) (v : ℚ) :
    (insertDesc key a l).filter (fun x => key x == v)
      = (if key a == v then [a] else []) ++ l.filter (fun x => key x == v) := by
  induction l with
  | nil => by_cases h : key a == v <;> simp [insertDesc, h]
  | cons b bs ih =>
    by_cases hab : key a < key b
    · simp only [insertDesc, if_pos hab, List.filter_cons]
      by_cases hb : (key b == v) = true
      · have hbv : key b = v := eq_of_beq hb
        have hav : (key a == v) = false := by
          refine beq_eq_false_iff_ne.mpr ?_
          intro he
          rw [he, ← hbv] at hab
          exact lt_irrefl _ hab
        simp [hb, hav, ih]
      · simp only [Bool.not_eq_true] at hb
        simp [hb, ih]
    · simp only [insertDesc, if_neg hab, List.filter_cons]
      by_cases ha : (key a == v) = true <;> simp [ha]

theorem filter_sortDesc (key : α → ℚ) (l : List α) (v : ℚ) :
    (sortDesc key l).filter (fun x => key x == v)
      = l.filter (fun x => key x == v) := by
  induction l with
  | nil => rfl
  | cons a l ih =>
    show (insertDesc key a (sortDesc key l)).filter _ = _
    rw [filter_insertDesc, ih, List.filter_cons]
    by_cases ha : (key a == v) = true <;> simp [ha]

/-! ## Lemmas: ordered-dict rollups -/

theorem map_fst_upsert (k : String) (init : σ) (f : σ → σ)
    (acc : List (String × σ)) :
    (upsert k init f acc).map Prod.fst
      = if k ∈ acc.map Prod.fst then acc.map Prod.fst
        else acc.map Prod.fst ++ [k] := by
  induction acc with
  | nil => simp [upsert]
  | cons p t ih =>
    obtain ⟨k', v⟩ := p
    by_cases hk : k' = k
    · subst hk
      simp [upsert]
    · by_cases hm : k ∈ t.map Prod.fst <;>
        simp [upsert, hk, hm, ih, Ne.symm hk]

theorem nodup_map_fst_upsert (k : String) (init : σ) (f : σ → σ)
    (acc : List (String × σ)) (h : (acc.map Prod.fst).Nodup) :
    ((upsert k init f acc).map Prod.fst).Nodup := by
  rw [map_fst_upsert]
  by_cases hm : k ∈ acc.map Prod.fst <;>
    simp [hm, h, List.nodup_append]

theorem mem_map_fst_upsert (k : String) (init : σ) (f : σ → σ)
    (acc : List (String × σ)) (x : String) :
    x ∈ (upsert k init f acc).map Prod.fst
      ↔ x ∈ acc.map Prod.fst ∨ x = k := by
  rw [map_fst_upsert]
  by_cases hm : k ∈ acc.map Prod.fst
  · rw [if_pos hm]
    constructor
    · exact Or.inl
    · rintro (h | rfl)
      · exact h
      · exact hm
  · rw [if_neg hm]
    rw [List.mem_append, List.mem_singleton]

/-- The common shape of the four rollup loops. -/
def rollupFold (key : VRecord → String) (init : VRecord → σ)
    (f : VRecord → σ → σ) (l : List VRecord) : List (String × σ) :=
  l.foldl (fun acc r => upsert (key r) (init r) (f r) acc) []

theorem nodup_map_fst_rollupAux (key : VRecord → String) (init : VRecord → σ)
    (f : VRecord → σ → σ) (l : List VRecord) :
    ∀ acc : List (String × σ), (acc.map Prod.fst).Nodup →
      ((l.foldl (fun acc r => upsert (key r) (init r) (f r) acc) acc).map
        Prod.fst).Nodup := by
  induction l with
  | nil => intro acc h; simpa using h
  | cons r t ih =>
    intro acc h
    exact ih _ (nodup_map_fst_upsert _ _ _ _ h)

theorem mem_map_fst_rollupAux (key : VRecord → String) (init : VRecord → σ)
    (f : VRecord → σ → σ) (l : List VRecord) :
    ∀ (acc : List (String × σ)) (x : String),
      x ∈ (l.foldl (fun acc r => upsert (key r) (init r) (f r) acc) acc).map
        Prod.fst
      ↔ x ∈ acc.map Prod.fst ∨ x ∈ l.map key := by
  induction l with
  | nil => intro acc x; simp
  | cons r t ih =>
    intro acc x
    rw [List.foldl_cons, ih, mem_map_fst_upsert]
    simp [or_assoc]

theorem length_rollupFold (key : VRecord → String) (init : VRecord → σ)
    (f : VRecord → σ → σ) (l : List VRecord) :
    (rollupFold key init f l).length = ((l.map key).dedup).length := by
  have hn : ((rollupFold key init f l).map Prod.fst).Nodup :=
    nodup_map_fst_rollupAux key init f l [] (by simp)
  have hm : ∀ x, x ∈ (rollupFold key init f l).map Prod.fst ↔ x ∈ l.map key := by
    intro x
    rw [rollupFold, mem_map_fst_rollupAux]
    simp
  have h1 : ((rollupFold key init f l).map Prod.fst).toFinset
      = ((l.map key).dedup).toFinset := by
    ext x
    simp [List.mem_toFinset, hm, List.mem_dedup]
  calc (rollupFold key init f l).length
      = ((rollupFold key init f l).map Prod.fst).length := by simp
    _ = ((rollupFold key init f l).map Prod.fst).toFinset.card :=
        (List.toFinset_card_of_nodup hn).symm
    _ = ((l.map key).dedup).toFinset.card := by rw [h1]
    _ = ((l.map key).dedup).length :=
        List.toFinset_card_of_nodup (List.nodup_dedup _)

theorem productRollup_eq (l : List VRecord) :
    productRollup l = rollupFold (fun r => r.ProductID)
      (fun r => ⟨r.ProductName, 0, 0, 0⟩)
      (fun r st => { st with
        total_sales := st.total_sales + r.TotalPrice
        total_quantity := st.total_quantity + r.Quantity
        transactions := st.transactions + 1 }) l := rfl

theorem customerRollup_eq (l : List VRecord) :
    customerRollup l = rollupFold (fun r => r.CustomerID)
      (fun _ => ⟨0, 0⟩)
      (fun r st => { st with
        total_spent := st.total_spent + r.TotalPrice
        transactions := st.transactions + 1 }) l := rfl

theorem length_productRollup (l : List VRecord) :
    (productRollup l).length = ((l.map VRecord.ProductID).dedup).length := by
  rw [productRollup_eq, length_rollupFold]

theorem length_customerRollup (l : List VRecord) :
    (customerRollup l).length = ((l.map VRecord.CustomerID).dedup).length := by
  rw [customerRollup_eq, length_rollupFold]

/-! ## Lemmas: the cleaning pipeline is an ordered partition -/

theorem routeValid_isSome_iff (r : RawRecord) :
    (routeValid r).isSome ↔ (routeInvalid r).isNone := by
  rcases hp : processRawRecord r with v | i <;>
    simp [routeValid, routeInvalid, hp]

theorem cleanAndValidate_eq_filterMap (l : List RawRecord) :
    cleanAndValidateRecords l
      = ((l.filter (fun r => !r.isEmptyDict)).filterMap routeValid,
         (l.filter (fun r => !r.isEmptyDict)).filterMap routeInvalid) := by
  induction l with
  | nil => rfl
  | cons r t ih =>
    by_cases he : r.isEmptyDict
    · simp [cleanAndValidateRecords, he, List.filter_cons, ih]
    · rcases hp : processRawRecord r with v | i <;>
        simp [cleanAndValidateRecords, he, List.filter_cons,
          List.filterMap_cons, routeValid, routeInvalid, hp, ih]

theorem filterMap_partition_length {α β : Type _} (f g : α → Option β)
    (h : ∀ x, (f x).isSome ↔ (g x).isNone) (l : List α) :
    (l.filterMap f).length + (l.filterMap g).length = l.length := by
  induction l with
  | nil => rfl
  | cons a t ih =>
    rcases hf : f a with _ | b
    · rcases hg : g a with _ | c
      · exfalso
        have := (h a).mpr (by simp [hg])
        rw [hf] at this
        simp at this
      · simp [List.filterMap_cons, hf, hg, ← ih]
        omega
    · have hg : g a = none := by
        have := (h a).mp (by simp [hf])
        simpa [Option.isNone_iff_eq_none] using this
      simp [List.filterMap_cons, hf, hg, ← ih]
      omega

/-! ## Lemmas: the validator on string-field records -/

theorem chainResult_cases (tid cust reg date pid : Option String)
    (qv uv : Option Value) :
    chainResult tid cust reg date pid qv uv = (true, "Valid")
      ∨ (chainResult tid cust reg date pid qv uv).1 = false := by
  unfold chainResult
  split_ifs <;> simp

/-- If any of the seven rule conditions fires, the outcome is invalid. -/
theorem chainResult_fst_false_of_any (tid cust reg date pid : Option String)
    (qv uv : Option Value)
    (h : (!pyStartsWithChar 'T' (tid.getD "")) = true
       ∨ pyStrip (cust.getD "") = ""
       ∨ pyStrip (reg.getD "") = ""
       ∨ noneOrNonpos (cleanNumericValue (qv.getD (.str "0"))) = true
       ∨ noneOrNonpos (cleanNumericValue (uv.getD (.str "0"))) = true
       ∨ (!pyStrptimeYmd (date.getD "")) = true
       ∨ (!pyStartsWithChar 'P' (pid.getD "")) = true) :
    (chainResult tid cust reg date pid qv uv).1 = false := by
  unfold chainResult
  split_ifs with h1 h2 h3 h4 h5 h6 h7 <;> try rfl
  rcases h with hh | hh | hh | hh | hh | hh | hh <;> simp_all

/-- Any missing field among the seven the validator reads makes the
outcome invalid (with the first failing rule's reason). -/
theorem chainResult_missing (tid cust reg date pid : Option String)
    (qv uv : Option Value)
    (h : tid = none ∨ cust = none ∨ reg = none ∨ date = none ∨ pid = none
      ∨ qv = none ∨ uv = none) :
    (chainResult tid cust reg date pid qv uv).1 = false := by
  apply chainResult_fst_false_of_any
  rcases h with rfl | rfl | rfl | rfl | rfl | rfl | rfl
  · exact Or.inl (by decide)
  · exact Or.inr (Or.inl (by decide))
  · exact Or.inr (Or.inr (Or.inl (by decide)))
  · exact Or.inr (Or.inr (Or.inr (Or.inr (Or.inr (Or.inl (by decide))))))
  · exact Or.inr (Or.inr (Or.inr (Or.inr (Or.inr (Or.inr (by decide))))))
  · exact Or.inr (Or.inr (Or.inr (Or.inl (by with_unfolding_all decide))))
  · exact Or.inr (Or.inr (Or.inr (Or.inr (Or.inl (by with_unfolding_all decide)))))

theorem pair_eq_of_fst_false {p : Bool × String} (h : p.1 = false) :
    p = (false, p.2) :=
  Prod.ext h rfl

theorem optStr_rep (o : Option Value)
    (h : ∀ v, o = some v → ∃ s, v = .str s) :
    ∃ os : Option String, o = os.map .str := by
  rcases o with _ | v
  · exact ⟨none, rfl⟩
  · obtain ⟨s, rfl⟩ := h v rfl
    exact ⟨some s, rfl⟩

/-- A store cell with string-or-absent text fields is of `mkRecord`
shape. -/
theorem exists_mk_of_strOk (r : Record) (h : StrOkCell r) :
    ∃ (tid cust reg date pid : Option String),
      r = mkRecord tid cust reg date pid r.ProductName r.Quantity
        r.UnitPrice r.TotalPrice r.Error := by
  obtain ⟨h1, h2, h3, h4, h5, _⟩ := h
  obtain ⟨tid, htid⟩ := optStr_rep _ h1
  obtain ⟨cust, hcust⟩ := optStr_rep _ h2
  obtain ⟨reg, hreg⟩ := optStr_rep _ h3
  obtain ⟨date, hdate⟩ := optStr_rep _ h4
  obtain ⟨pid, hpid⟩ := optStr_rep _ h5
  refine ⟨tid, cust, reg, date, pid, ?_⟩
  cases r
  simp_all [mkRecord]

/-- `validate_record` raises no exception on a record whose text fields
are strings when present. -/
theorem validateRecord_isOk_of_strOk (r : Record) (h : StrOkCell r) :
    ∃ p, validateRecord r = .ok p := by
  obtain ⟨tid, cust, reg, date, pid, heq⟩ := exists_mk_of_strOk r h
  refine ⟨chainResult tid cust reg date pid r.Quantity r.UnitPrice, ?_⟩
  conv_lhs => rw [heq]
  exact validateRecord_mk tid cust reg date pid r.ProductName r.Quantity
    r.UnitPrice r.TotalPrice r.Error

/-! ## Lemmas: the store model -/

theorem getD_append_length (l : List Record) (x : Record) :
    (l ++ [x]).getD l.length default = x := by
  rw [List.getD_eq_get?, List.get?_concat_length]
  rfl

theorem getD_set_self (l : List Record) (n : ℕ) (x : Record)
    (h : n < l.length) :
    (l.set n x).getD n default = x := by
  rw [List.getD_eq_get?, List.get?_set_eq]
  rcases hg : l.get? n with _ | y
  · rw [List.get?_eq_none] at hg
    omega
  · rfl

theorem set_append_length (l : List Record) (r x : Record) :
    (l ++ [r]).set l.length x = l ++ [x] := by
  induction l with
  | nil => rfl
  | cons a t ih => simp [List.set, ih]

theorem strOkCell_of_fields (r : Record)
    (h1 : ∀ v, r.TransactionID = some v → ∃ s, v = .str s)
    (h2 : ∀ v, r.CustomerID = some v → ∃ s, v = .str s)
    (h3 : ∀ v, r.Region = some v → ∃ s, v = .str s)
    (h4 : ∀ v, r.Date = some v → ∃ s, v = .str s)
    (h5 : ∀ v, r.ProductID = some v → ∃ s, v = .str s)
    (pn : String) (q u : Value) :
    StrOkCell { r with
      ProductName := some (.str pn)
      Quantity := some q
      UnitPrice := some u } := by
  refine ⟨h1, h2, h3, h4, h5, ?_⟩
  intro v hv
  cases hv
  exact ⟨pn, rfl⟩

theorem validateRecord_ne_error (r : Record) (h : StrOkCell r) (e : String) :
    validateRecord r ≠ .error e := by
  obtain ⟨p, hp⟩ := validateRecord_isOk_of_strOk r h
  rw [hp]
  simp

/-- One pipeline iteration: succeeds on a string-field cell, only grows
the store, leaves every previously existing cell untouched, and routes
(if at all) to the freshly allocated address. -/
theorem stepStore_spec (s : Store) (a : ℕ)
    (hok : StrOkCell (s.getD a default)) :
    ∃ (s1 : Store) (tag : Option (Bool × ℕ)),
      stepStore s a = .ok (s1, tag)
      ∧ s.length ≤ s1.length
      ∧ (∀ i, i < s.length → s1.get? i = s.get? i)
      ∧ (∀ bl b, tag = some (bl, b) → b = s.length) := by
  obtain ⟨h1, h2, h3, h4, h5, h6⟩ := hok
  obtain ⟨opn, hopn⟩ := optStr_rep _ h6
  by_cases he : recEmptyDict (s.getD a default) = true
  · refine ⟨s, none, ?_, le_rfl, fun i _ => rfl, by simp⟩
    simp only [stepStore]
    rw [if_pos he]
  · simp only [stepStore, he, if_false, Bool.false_eq_true, ite_false,
      getD_append_length, hopn, asStr_mapped, set_append_length]
    split
    · rename_i e heq
      exact absurd heq (validateRecord_ne_error _
        (strOkCell_of_fields _ h1 h2 h3 h4 h5 _ _ _) e)
    · rename_i res heq
      split
      · refine ⟨_, _, rfl, by simp, ?_, ?_⟩
        · intro i hi
          exact List.get?_append hi
        · intro bl b hb
          cases hb
          rfl
      · refine ⟨_, _, rfl, by simp, ?_, ?_⟩
        · intro i hi
          exact List.get?_append hi
        · intro bl b hb
          cases hb
          rfl

/-- The pipeline loop over the store: with in-range, string-field input
cells it succeeds, never changes any cell that existed before the call,
and every routed output address is a fresh cell. -/
theorem processStore_spec (addrs : List ℕ) (s : Store)
    (hlt : ∀ a ∈ addrs, a < s.length)
    (hok : ∀ a ∈ addrs, StrOkCell (s.getD a default)) :
    ∃ (s2 : Store) (vs inv : List ℕ),
      processStore addrs s = .ok (s2, vs, inv)
      ∧ s.length ≤ s2.length
      ∧ (∀ i, i < s.length → s2.get? i = s.get? i)
      ∧ (∀ b, b ∈ vs ++ inv → s.length ≤ b) := by
  induction addrs generalizing s with
  | nil => exact ⟨s, [], [], rfl, le_rfl, fun i _ => rfl, by simp⟩
  | cons a rest ih =>
    obtain ⟨s1, tag, hstep, hlen1, hpres1, htag⟩ :=
      stepStore_spec s a (hok a (by simp))
    have hlt1 : ∀ b ∈ rest, b < s1.length :=
      fun b hb => lt_of_lt_of_le (hlt b (by simp [hb])) hlen1
    have hok1 : ∀ b ∈ rest, StrOkCell (s1.getD b default) := by
      intro b hb
      have hblt : b < s.length := hlt b (by simp [hb])
      have hgd : s1.getD b default = s.getD b default := by
        rw [List.getD_eq_get?, hpres1 b hblt, ← List.getD_eq_get?]
      rw [hgd]
      exact hok b (by simp [hb])
    obtain ⟨s2, vs, inv, hrec, hlen2, hpres2, hfresh⟩ := ih s1 hlt1 hok1
    have hpres : ∀ i, i < s.length → s2.get? i = s.get? i := by
      intro i hi
      rw [hpres2 i (lt_of_lt_of_le hi hlen1), hpres1 i hi]
    rcases tag with _ | ⟨bl, b⟩
    · refine ⟨s2, vs, inv, ?_, le_trans hlen1 hlen2, hpres, ?_⟩
      · simp [processStore, hstep, hrec]
      · exact fun c hc => le_trans hlen1 (hfresh c hc)
    · have hb : b = s.length := htag bl b rfl
      subst hb
      cases bl
      · refine ⟨s2, vs, s.length :: inv, ?_, le_trans hlen1 hlen2, hpres, ?_⟩
        · simp [processStore, hstep, hrec]
        · intro c hc
          rcases List.mem_append.mp hc with hcv | hci
          · exact le_trans hlen1 (hfresh c (List.mem_append.mpr (Or.inl hcv)))
          · rcases List.mem_cons.mp hci with rfl | hci2
            · exact le_rfl
            · exact le_trans hlen1 (hfresh c (List.mem_append.mpr (Or.inr hci2)))
      · refine ⟨s2, s.length :: vs, inv, ?_, le_trans hlen1 hlen2, hpres, ?_⟩
        · simp [processStore, hstep, hrec]
        · intro c hc
          rcases List.mem_append.mp hc with hcv | hci
          · rcases List.mem_cons.mp hcv with rfl | hcv2
            · exact le_rfl
            · exact le_trans hlen1 (hfresh c (List.mem_append.mpr (Or.inl hcv2)))
          · exact le_trans hlen1 (hfresh c (List.mem_append.mpr (Or.inr hci)))

/-! ## The claims -/

/-- The spec's §8 example record (raw, as parsed from the input line). -/
def t100raw : RawRecord :=
  { TransactionID := some "T100"
    Date := some "2024-03-15"
    ProductID := some "P55"
    ProductName := some "Wireless, Mouse"
    Quantity := some "3"
    UnitPrice := some "19.99"
    CustomerID := some "C9"
    Region := some "West" }

/-- What the pipeline actually produces for `t100raw`: the cleaned record
lands in the *invalid* output, rule 4 having re-run `clean_numeric_value`
on the already-converted float `3.0` (whose `.replace` raises the caught
`AttributeError`). -/
def t100processed : Record :=
  { TransactionID := some (.str "T100")
    Date := some (.str "2024-03-15")
    ProductID := some (.str "P55")
    ProductName := some (.str "Wireless Mouse")
    Quantity := some (.num 3)
    UnitPrice := some (.num (1999 / 100))
    CustomerID := some (.str "C9")
    Region := some (.str "West")
    TotalPrice := none
    Error := some (.str "Invalid Quantity: 3.0") }

set_option maxRecDepth 4000 in
/-- C1: evaluating `clean_and_validate_records` on the spec's example
valid record.  The code routes it to the *invalid* output with error
`"Invalid Quantity: 3.0"` (and the valid output stays empty), because the
loop overwrites `Quantity`/`UnitPrice` with floats before re-validating,
and `validate_record`'s `clean_numeric_value` treats any non-string as
unparsable.  The spec says this record is routed to valid with
`total_price = 59.97`. -/
theorem claim_C1_pipeline_rejects_spec_example :
    cleanAndValidateRecords [t100raw] = ([], [t100processed]) := by
  with_unfolding_all rfl

/-- C2: the pipeline is an ordered partition of the non-empty raw
records: the two outputs are order-preserving projections of the filtered
input (no reordering, no deduplication), each processed record goes to
exactly one side, and the lengths add up to the number of non-empty
records. -/
theorem claim_C2_partition (l : List RawRecord) :
    cleanAndValidateRecords l
      = ((l.filter (fun r => !r.isEmptyDict)).filterMap routeValid,
         (l.filter (fun r => !r.isEmptyDict)).filterMap routeInvalid)
    ∧ (∀ r : RawRecord, (routeValid r).isSome ↔ (routeInvalid r).isNone)
    ∧ (cleanAndValidateRecords l).1.length
        + (cleanAndValidateRecords l).2.length
        = (l.filter (fun r => !r.isEmptyDict)).length := by
  refine ⟨cleanAndValidate_eq_filterMap l, routeValid_isSome_iff, ?_⟩
  rw [cleanAndValidate_eq_filterMap l]
  exact filterMap_partition_length routeValid routeInvalid
    routeValid_isSome_iff _

/-- The spec's §8 rule-order example: fails rule 1 (prefix `T`) and
rule 4 (negative quantity) simultaneously. -/
def x1record : Record :=
  mkRecord (some "X1") (some "C1") (some "East") (some "2024-01-01")
    (some "P1") (some (.str "Widget")) (some (.str "-5")) (some (.str "10"))
    none none

/-- C3: `validate_record` evaluates the seven rules in the fixed source
order and returns exactly the first failing rule's reason (the nested
if-chain below); in particular the X1 record, failing rules 1 and 4,
reports the rule-1 reason. -/
theorem claim_C3_first_failure_order :
    (∀ (tid cust reg date pid : String) (pn qv uv tp er : Option Value),
      validateRecord (mkRecord (some tid) (some cust) (some reg)
          (some date) (some pid) pn qv uv tp er)
        = .ok (if !pyStartsWithChar 'T' tid then
            (false, "TransactionID must start with 'T'")
          else if pyStrip cust = "" then (false, "Missing CustomerID")
          else if pyStrip reg = "" then (false, "Missing Region")
          else if noneOrNonpos (cleanNumericValue (qv.getD (.str "0"))) then
            (false, "Invalid Quantity: " ++ fmtGot qv)
          else if noneOrNonpos (cleanNumericValue (uv.getD (.str "0"))) then
            (false, "Invalid UnitPrice: " ++ fmtGot uv)
          else if !pyStrptimeYmd date then
            (false, "Invalid Date format: " ++ date)
          else if !pyStartsWithChar 'P' pid then
            (false, "Invalid ProductID: " ++ pid)
          else (true, "Valid")))
    ∧ validateRecord x1record
        = .ok (false, "TransactionID must start with 'T'") := by
  constructor
  · intro tid cust reg date pid pn qv uv tp er
    exact validateRecord_mk (some tid) (some cust) (some reg) (some date)
      (some pid) pn qv uv tp er
  · with_unfolding_all rfl

/-- C4: a leading `-` after comma-stripping and trimming always yields
`None` from `clean_numeric_value`; and any quantity or unit-price string
that is unparsable or parses to a non-positive number (so in particular
`"-0"` and `"0"`, and every negative or zero value) makes the whole
record invalid. -/
theorem claim_C4_negative_never_accepted :
    (∀ v : String, pyStartsWithChar '-' (pyStrip (pyDropChar ',' v)) = true →
      cleanNumericValue (.str v) = none)
    ∧ (∀ (tid cust reg date pid : String) (pn tp er : Option Value)
        (qs us : String),
        (noneOrNonpos (cleanNumericValue (.str qs)) = true
          ∨ noneOrNonpos (cleanNumericValue (.str us)) = true) →
        ∃ m, validateRecord (mkRecord (some tid) (some cust) (some reg)
            (some date) (some pid) pn (some (.str qs)) (some (.str us))
            tp er) = .ok (false, m)) := by
  constructor
  · intro v hv
    simp [cleanNumericValue, hv]
  · intro tid cust reg date pid pn tp er qs us h
    refine ⟨(chainResult (some tid) (some cust) (some reg) (some date)
      (some pid) (some (.str qs)) (some (.str us))).2, ?_⟩
    rw [validateRecord_mk]
    congr 1
    apply pair_eq_of_fst_false
    apply chainResult_fst_false_of_any
    rcases h with hq | hu
    · exact Or.inr (Or.inr (Or.inr (Or.inl hq)))
    · exact Or.inr (Or.inr (Or.inr (Or.inr (Or.inl hu))))

/-- C4 witness: the literal strings `"-0"` and `"0"` at a concrete
record. -/
theorem claim_C4_witness :
    cleanNumericValue (.str "-0") = none
    ∧ (∃ m, validateRecord (mkRecord (some "T1") (some "C1") (some "East")
        (some "2024-01-01") (some "P1") none (some (.str "-0"))
        (some (.str "0")) none none) = .ok (false, m)) :=
  ⟨claim_C4_negative_never_accepted.1 "-0" (by decide),
   claim_C4_negative_never_accepted.2 "T1" "C1" "East" "2024-01-01" "P1"
     none none none "-0" "0" (Or.inl (by with_unfolding_all decide))⟩

/-- C5 counterexample: the date rule accepts `"2024-3-15"`, whose month
has a single digit, so "any deviation in digit counts fails" is false
(`strptime`'s `%m`/`%d` admit one- or two-digit forms). -/
theorem claim_C5_counterexample :
    pyStrptimeYmd "2024-3-15" = true ∧ specExactYmd "2024-3-15" = false := by
  decide

/-- C5 (amended): every exact `YYYY-MM-DD` calendar date is accepted, the
spec's two rejection examples are rejected (invalid month, wrong
delimiter), invalid calendar dates are rejected — but one-or-two-digit
month/day forms are also accepted. -/
theorem claim_C5_date_rule :
    (∀ s : String, specExactYmd s = true → pyStrptimeYmd s = true)
    ∧ pyStrptimeYmd "2024-13-01" = false
    ∧ pyStrptimeYmd "03/15/2024" = false
    ∧ pyStrptimeYmd "2024-02-30" = false
    ∧ pyStrptimeYmd "2023-02-29" = false
    ∧ pyStrptimeYmd "2024-02-29" = true
    ∧ pyStrptimeYmd "2024-3-15" = true := by
  refine ⟨?_, by decide, by decide, by decide, by decide, by decide, by decide⟩
  intro s
  unfold specExactYmd pyStrptimeYmd
  rcases pySplitOnChar '-' s with _ | ⟨y, _ | ⟨m, _ | ⟨d, _ | ⟨e, rest⟩⟩⟩⟩ <;>
    intro h <;> simp_all [Bool.and_eq_true, Bool.or_eq_true]

/-- C5 witness: the exact-format direction applied at a concrete date. -/
theorem claim_C5_witness :
    specExactYmd "2024-03-15" = true ∧ pyStrptimeYmd "2024-03-15" = true :=
  ⟨by decide, claim_C5_date_rule.1 "2024-03-15" (by decide)⟩

/-- C6: `analyze_sales` on the empty list returns the empty sentinel
(`{}`, embedded as `none`) without any division, and
`generate_sales_report` renders it as the no-data sentinel text. -/
theorem claim_C6_empty_input :
    analyzeSales [] = none
    ∧ generateSalesReport (analyzeSales [])
        = "No data available for analysis" :=
  ⟨rfl, rfl⟩

/-- C7: for a non-empty valid-record list the `by_product` rollup is the
top 10 (at most 10 entries; exactly 10 when there are at least 10
distinct product ids) of the stable descending sort by total sales, so it
is sorted descending and ties keep first-encounter order (the sorted list
restricted to any total-sales value equals the encounter-ordered rollup
so restricted); `top_customers` is built the same way by total spent. -/
theorem claim_C7_top10 (l : List VRecord) (h : l ≠ []) :
    analyzeSales l = some (analysisBody l)
    ∧ (analysisBody l).by_product.length ≤ 10
    ∧ (10 ≤ ((l.map VRecord.ProductID).dedup).length →
        (analysisBody l).by_product.length = 10)
    ∧ (analysisBody l).by_product.Pairwise
        (fun a b => b.2.total_sales ≤ a.2.total_sales)
    ∧ (∀ v : ℚ, (sortDesc (fun p => p.2.total_sales) (productRollup l)).filter
        (fun p => p.2.total_sales == v)
        = (productRollup l).filter (fun p => p.2.total_sales == v))
    ∧ (analysisBody l).top_customers.length ≤ 10
    ∧ (10 ≤ ((l.map VRecord.CustomerID).dedup).length →
        (analysisBody l).top_customers.length = 10)
    ∧ (analysisBody l).top_customers.Pairwise
        (fun a b => b.2.total_spent ≤ a.2.total_spent)
    ∧ (∀ v : ℚ, (sortDesc (fun p => p.2.total_spent) (customerRollup l)).filter
        (fun p => p.2.total_spent == v)
        = (customerRollup l).filter (fun p => p.2.total_spent == v)) := by
  have hbp : (analysisBody l).by_product
      = (sortDesc (fun p => p.2.total_sales) (productRollup l)).take 10 := rfl
  have htc : (analysisBody l).top_customers
      = (sortDesc (fun p => p.2.total_spent) (customerRollup l)).take 10 := rfl
  refine ⟨?_, ?_, ?_, ?_, ?_, ?_, ?_, ?_, ?_⟩
  · unfold analyzeSales
    rw [if_neg (by simpa using h)]
  · rw [hbp, List.length_take]
    exact min_le_left _ _
  · intro hd
    rw [hbp, List.length_take, length_sortDesc, length_productRollup]
    exact min_eq_left hd
  · rw [hbp]
    exact List.Pairwise.sublist (List.take_sublist 10 _)
      (pairwise_sortDesc (fun p => p.2.total_sales) (productRollup l))
  · intro v
    exact filter_sortDesc (fun p => p.2.total_sales) (productRollup l) v
  · rw [htc, List.length_take]
    exact min_le_left _ _
  · intro hd
    rw [htc, List.length_take, length_sortDesc, length_customerRollup]
    exact min_eq_left hd
  · rw [htc]
    exact List.Pairwise.sublist (List.take_sublist 10 _)
      (pairwise_sortDesc (fun p => p.2.total_spent) (customerRollup l))
  · intro v
    exact filter_sortDesc (fun p => p.2.total_spent) (customerRollup l) v

/-- A concrete valid record for witnesses. -/
def vwit : VRecord :=
  ⟨"T1", "2024-01-01", "P1", "Widget", 1, 5, "C1", "West", 5⟩

/-- C7 witness: the theorem applied at a concrete one-record list. -/
theorem claim_C7_witness :
    analyzeSales [vwit] = some (analysisBody [vwit])
    ∧ (analysisBody [vwit]).by_product.length ≤ 10 :=
  ⟨(claim_C7_top10 [vwit] (by simp)).1, (claim_C7_top10 [vwit] (by simp)).2.1⟩

/-- A valid record whose unit price has three decimals, so the average
unit price does not survive `round(x, 2)` unchanged. -/
def r8 : VRecord :=
  ⟨"T1", "2024-01-01", "P1", "Widget", 1, 1 / 8, "C1", "West", 1 / 8⟩

/-- C8 counterexample: for the record with quantity 1 and total price
0.125, the stored `average_unit_price` is `round(0.125, 2) = 0.12`, not
the exact quotient 0.125; the summary field therefore does not equal
total sales ÷ total quantity as the claim states. -/
theorem claim_C8_counterexample :
    (analysisBody [r8]).summary.average_unit_price
      ≠ ([r8].map VRecord.TotalPrice).sum / ([r8].map VRecord.Quantity).sum := by
  with_unfolding_all decide

/-- C8 (amended): the summary's average unit price is the
quantity-weighted quotient — total sales ÷ total quantity — rounded to
two decimals (and 0 when the total quantity is not positive); it is not
the mean of the unit prices. -/
theorem claim_C8_weighted_average (l : List VRecord) (h : l ≠ []) :
    analyzeSales l = some (analysisBody l)
    ∧ (analysisBody l).summary.average_unit_price
        = (if 0 < (l.map VRecord.Quantity).sum then
            pyRound2 ((l.map VRecord.TotalPrice).sum
              / (l.map VRecord.Quantity).sum)
          else 0) := by
  constructor
  · unfold analyzeSales
    rw [if_neg (by simpa using h)]
  · by_cases h0 : 0 < (l.map VRecord.Quantity).sum
    · simp [analysisBody, h0]
    · simp only [analysisBody, h0, if_false]
      show pyRound2 0 = 0
      with_unfolding_all decide

/-- C8 witness: the amended statement at a concrete one-record list. -/
theorem claim_C8_witness :
    analyzeSales [r8] = some (analysisBody [r8])
    ∧ (analysisBody [r8]).summary.average_unit_price
        = (if 0 < ([r8].map VRecord.Quantity).sum then
            pyRound2 (([r8].map VRecord.TotalPrice).sum
              / ([r8].map VRecord.Quantity).sum)
          else 0) :=
  claim_C8_weighted_average [r8] (by simp)

/-- C9 counterexample: `validate_record` *does* raise on a dict holding a
non-string transaction id (`1.startswith` is an uncaught
`AttributeError`/`TypeError`), so "never raises for every input record"
is false as stated. -/
theorem claim_C9_counterexample :
    validateRecord { TransactionID := some (.num 1) }
      = .error "TypeError: expected str" := rfl

/-- C9 (amended): on every record whose five text-rule fields are strings
when present (`Quantity`/`UnitPrice` arbitrary — their string methods run
inside the `try`), `validate_record` returns normally; and any missing
field among the seven it reads yields an invalid outcome (the
corresponding rule fails when reached) rather than an escaping error. -/
theorem claim_C9_no_raise (tid cust reg date pid : Option String)
    (pn qv uv tp er : Option Value) :
    (validateRecord (mkRecord tid cust reg date pid pn qv uv tp er)).isOk
        = true
    ∧ ((tid = none ∨ cust = none ∨ reg = none ∨ date = none ∨ pid = none
        ∨ qv = none ∨ uv = none) →
      ∃ m, validateRecord (mkRecord tid cust reg date pid pn qv uv tp er)
        = .ok (false, m)) := by
  constructor
  · rw [validateRecord_mk]
    rfl
  · intro hmiss
    refine ⟨(chainResult tid cust reg date pid qv uv).2, ?_⟩
    rw [validateRecord_mk]
    congr 1
    exact pair_eq_of_fst_false
      (chainResult_missing tid cust reg date pid qv uv hmiss)

/-- C9 witness: the empty dict — every rule field missing — is handled
without an exception and comes back invalid. -/
theorem claim_C9_witness :
    (validateRecord (mkRecord none none none none none none none none
      none none)).isOk = true
    ∧ ∃ m, validateRecord (mkRecord none none none none none none none
        none none none) = .ok (false, m) :=
  ⟨(claim_C9_no_raise none none none none none none none none none none).1,
   (claim_C9_no_raise none none none none none none none none none none).2
     (Or.inl rfl)⟩

theorem strOk_map_str (o : Option String) :
    ∀ v, o.map Value.str = some v → ∃ s, v = .str s := by
  intro v hv
  rcases o with _ | s
  · simp at hv
  · simp at hv
    exact ⟨s, hv.symm⟩

theorem strOkCell_toRecord (r : RawRecord) : StrOkCell r.toRecord :=
  ⟨strOk_map_str _, strOk_map_str _, strOk_map_str _, strOk_map_str _,
   strOk_map_str _, strOk_map_str _⟩

/-- C10: over the store model, `clean_and_validate_records` run on any
addresses of existing raw-record cells (i) succeeds, (ii) leaves every
cell that existed before the call with exactly its old value — the input
dicts are never mutated — and (iii) routes only freshly allocated copies,
so no output record aliases an input record. -/
theorem claim_C10_no_mutation (s : Store) (addrs : List ℕ)
    (hlt : ∀ a ∈ addrs, a < s.length)
    (hok : ∀ a ∈ addrs, StrOkCell (s.getD a default)) :
    ∃ (s2 : Store) (vs inv : List ℕ),
      processStore addrs s = .ok (s2, vs, inv)
      ∧ (∀ i, i < s.length → s2.get? i = s.get? i)
      ∧ (∀ b, b ∈ vs ++ inv → s.length ≤ b)
      ∧ (∀ a ∈ addrs, ∀ b ∈ vs ++ inv, a ≠ b) := by
  obtain ⟨s2, vs, inv, hrec, _, hpres, hfresh⟩ :=
    processStore_spec addrs s hlt hok
  refine ⟨s2, vs, inv, hrec, hpres, hfresh, ?_⟩
  intro a ha b hb
  have h1 := hlt a ha
  have h2 := hfresh b hb
  omega

/-- C10 witness: a one-cell store holding the spec's example record,
processed at address 0. -/
theorem claim_C10_witness :
    (∀ a ∈ ([0] : List ℕ), a < ([t100raw.toRecord] : Store).length)
    ∧ (∃ (s2 : Store) (vs inv : List ℕ),
        processStore [0] [t100raw.toRecord] = .ok (s2, vs, inv)
        ∧ (∀ i, i < ([t100raw.toRecord] : Store).length →
            s2.get? i = ([t100raw.toRecord] : Store).get? i)
        ∧ (∀ b, b ∈ vs ++ inv → ([t100raw.toRecord] : Store).length ≤ b)
        ∧ (∀ a ∈ ([0] : List ℕ), ∀ b ∈ vs ++ inv, a ≠ b)) :=
  ⟨by simp, claim_C10_no_mutation [t100raw.toRecord] [0] (by simp)
    (by
      intro a ha
      obtain rfl := List.mem_singleton.mp ha
      simpa using strOkCell_toRecord t100raw)⟩
